import Mathlib

/-!
Verification of the MCP weather client (`client.py`): a shallow embedding of
the query-processing orchestration loop, schema normalization, tool
discovery, prompt composition and connection validation, with theorems
settling the specification claims. Definitions come first, translated from
the python source; the theorems follow.
-/

namespace WeatherClient

/-! ## Definitions -/


/-- A structured schema value: the post-`json.loads` shape of a tool's
`inputSchema` — nested mappings (python dicts, insertion-ordered), sequences
(python lists), and scalar leaves. Numbers are modelled as `Int`. -/
inductive SchemaValue where
  | str : String → SchemaValue
  | int : Int → SchemaValue
  | bool : Bool → SchemaValue
  | null : SchemaValue
  | dict : List (String × SchemaValue) → SchemaValue
  | list : List SchemaValue → SchemaValue

/-- `clean_schema` from `client.py` lines 67-75: on a dict, delete the key
`"title"` if present, then recursively clean every remaining value (the
remaining keys keep their relative order, as python in-place mutation does);
on a list, clean element-wise; scalars are returned unchanged. -/
def clean_schema : SchemaValue → SchemaValue
  | .dict kvs =>
      .dict ((kvs.filter (fun kv => kv.1 ≠ "title")).attach.map
        (fun kv => (kv.1.1, clean_schema kv.1.2)))
  | .list xs => .list (xs.attach.map (fun x => clean_schema x.1))
  | v => v
termination_by v => sizeOf v
decreasing_by
  · have hmem : kv.1 ∈ kvs := (List.mem_filter.mp kv.2).1
    have h1 := List.sizeOf_lt_of_mem hmem
    obtain ⟨⟨k, v⟩, hkv⟩ := kv
    simp at h1 ⊢
    omega
  · have h1 := List.sizeOf_lt_of_mem x.2
    simp
    omega

/-- `true` iff a key literally named `"title"` occurs in some mapping
anywhere inside the value, at any nesting depth. -/
def hasTitleKey : SchemaValue → Bool
  | .dict kvs =>
      kvs.attach.any (fun kv => kv.1.1 = "title" || hasTitleKey kv.1.2)
  | .list xs => xs.attach.any (fun x => hasTitleKey x.1)
  | _ => false
termination_by v => sizeOf v
decreasing_by
  · have h1 := List.sizeOf_lt_of_mem kv.2
    obtain ⟨⟨k, v⟩, hkv⟩ := kv
    simp at h1 ⊢
    omega
  · have h1 := List.sizeOf_lt_of_mem x.2
    simp
    omega

/-- The apostrophe character, as a string. -/
def sq : String := String.singleton (Char.ofNat 39)

/-- A tool descriptor as returned by the MCP server's `list_tools` call.
`inputSchema` is modelled post-parse (the source applies `json.loads` when it
arrives as a text blob; we embed the already-structured value). -/
structure Tool where
  name : String
  description : String
  inputSchema : SchemaValue

/-- One Gemini function declaration, the content of the
`"function_declarations"` entry built at lines 79-85. -/
structure FunctionDecl where
  name : String
  description : String
  parameters : SchemaValue

/-- Python `d[k]` / `d.get(k)` on an insertion-ordered dict: the value at the
first matching key. -/
def dictFind (kvs : List (String × SchemaValue)) (k : String) : Option SchemaValue :=
  (kvs.find? (fun kv => kv.1 = k)).map (fun kv => kv.2)

/-- Python `repr()` of a schema value (used by `str()` on non-string
values). -/
def pyRepr : SchemaValue → String
  | .str s => sq ++ s ++ sq
  | .int n => toString n
  | .bool b => if b then "True" else "False"
  | .null => "None"
  | .dict kvs => "\x7b" ++ String.intercalate ", "
      (kvs.attach.map (fun kv => sq ++ kv.1.1 ++ sq ++ ": " ++ pyRepr kv.1.2)) ++ "\x7d"
  | .list xs => "[" ++ String.intercalate ", "
      (xs.attach.map (fun x => pyRepr x.1)) ++ "]"
termination_by v => sizeOf v
decreasing_by
  · have h1 := List.sizeOf_lt_of_mem kv.2
    obtain ⟨⟨k, v⟩, hkv⟩ := kv
    simp at h1 ⊢
    omega
  · have h1 := List.sizeOf_lt_of_mem x.2
    simp
    omega

/-- Python `str()` / f-string rendering of a schema value. -/
def pyStr : SchemaValue → String
  | .str s => s
  | v => pyRepr v

/-- The parameter description line built at line 94 of `client.py`:
`  - Parameter '<paramName>': <paramDescription>`. A non-dict
`param_details` makes python's `param_details.get` raise `AttributeError`
(modelled as `.error`). -/
def paramLine (pname : String) (pdetails : SchemaValue) : Except String String :=
  match pdetails with
  | .dict kvs => .ok ("  - Parameter " ++ sq ++ pname ++ sq ++ ": " ++
      pyStr ((dictFind kvs "description").getD (.str "")))
  | _ => .error "AttributeError: get"

/-- The per-tool parameter description lines (lines 91-94). The argument is
the schema object *after* `clean_schema` has run, because `clean_schema`
mutates the dict in place and returns the same object, so line 91's `schema`
aliases line 77's `cleaned_schema`. A non-dict `schema['properties']` makes
`.items()` raise `AttributeError`. -/
def toolParamLines : SchemaValue → Except String (List String)
  | .dict kvs =>
      match dictFind kvs "properties" with
      | some (.dict props) => props.mapM (fun kv => paramLine kv.1 kv.2)
      | some _ => .error "AttributeError: items"
      | none => .ok []
  | _ => .ok []

/-- Processing of one tool in the discovery loop (lines 62-94): its Gemini
function declaration (with normalized parameters) and its description lines —
the header `- <name>: <description>` followed by the parameter lines. -/
def discoverTool (t : Tool) : Except String (FunctionDecl × List String) :=
  let cleaned := clean_schema t.inputSchema
  (toolParamLines cleaned).map (fun pls =>
    (⟨t.name, t.description, cleaned⟩,
     ("- " ++ t.name ++ ": " ++ t.description) :: pls))

/-- The whole discovery loop: one declaration per tool (each wrapped, in the
source, in its own `"function_declarations"` singleton) and the concatenated
description lines, in tool order. An exception on any tool escapes
`process_query` (the loop runs before the `try` block). -/
def discover : List Tool → Except String (List FunctionDecl × List String)
  | [] => .ok ([], [])
  | t :: rest => do
    let (d, ls) ← discoverTool t
    let (ds, lss) ← discover rest
    return (d :: ds, ls ++ lss)

/-- Claim-side view: the declared properties map of a raw input schema
(empty when the schema is not a mapping or declares no `"properties"`
mapping). -/
def declaredProps (s : SchemaValue) : List (String × SchemaValue) :=
  match s with
  | .dict kvs =>
      match dictFind kvs "properties" with
      | some (.dict props) => props
      | _ => []
  | _ => []

/-- Claim-side view: a declared parameter's description string, the empty
string when absent. -/
def declaredDesc (pdetails : SchemaValue) : String :=
  match pdetails with
  | .dict pkvs =>
      match dictFind pkvs "description" with
      | some (.str d) => d
      | _ => ""
  | _ => ""

/-- The spec's description-line format for one declared parameter. -/
def specParamLine (pname desc : String) : String :=
  "  - Parameter " ++ sq ++ pname ++ sq ++ ": " ++ desc

/-- The description lines predicted for one tool: the header
`- <name>: <description>` then one line per declared parameter — restricted
to the parameters not literally named `"title"` (the amendment the in-place
normalization forces). -/
def specToolLines (t : Tool) : List String :=
  ("- " ++ t.name ++ ": " ++ t.description) ::
    ((declaredProps t.inputSchema).filter (fun kv => kv.1 ≠ "title")).map
      (fun kv => specParamLine kv.1 (declaredDesc kv.2))

/-- Well-formedness of one declared parameter's schema: it is a mapping, and
its `"description"` entry, when present, is a string. -/
def WFProp (pd : SchemaValue) : Prop :=
  ∃ pkvs, pd = SchemaValue.dict pkvs ∧
    (dictFind pkvs "description" = none ∨
     ∃ d, dictFind pkvs "description" = some (.str d))

/-- Well-formedness of a tool's declared schema: when the schema is a mapping
declaring a `"properties"` entry, that entry is a mapping whose values are
well-formed parameter schemas. (Ill-formed schemas make the python discovery
loop raise `AttributeError`.) -/
def WFSchema (s : SchemaValue) : Prop :=
  ∀ kvs v, s = SchemaValue.dict kvs → dictFind kvs "properties" = some v →
    ∃ props, v = SchemaValue.dict props ∧ ∀ kv ∈ props, WFProp kv.2

/-- The fixed location-conversion example block of the enhanced query. -/
def exampleBlock : String :=
  "For example:\n- Miami, FL is approximately at latitude 25.7617, longitude -80.1918\n- New York City is approximately at latitude 40.7128, longitude -74.0060\n- Los Angeles is approximately at latitude 34.0522, longitude -118.2437"

/-- Fixed prompt text before the user query. -/
def promptPart1 : String := "\nI need you to help me with a weather query: \""

/-- Fixed prompt text between the user query and the example block. -/
def promptPart2 : String :=
  "\"\n\nWhen using weather tools, if a location is mentioned, you should automatically convert the location name to its approximate latitude and longitude.\n"

/-- Fixed prompt text between the example block and the description lines. -/
def promptPart3 : String := "\n\nI have the following tools available:\n"

/-- Fixed prompt text after the description lines (up to the apostrophe of
"don't"). -/
def promptPart4 : String :=
  "\n\nPlease use these tools to answer my query. If you need latitude and longitude for a location mentioned in my query, convert it automatically - don"

/-- Tail of the fixed prompt text. -/
def promptPart5 : String := "t ask me for coordinates.\n"

/-- The enhanced query f-string (lines 97-110): the fixed instruction text
with the literal user query and the newline-joined tool description lines
spliced in. -/
def enhanced_query (query : String) (tool_descriptions : List String) : String :=
  promptPart1 ++ query ++ promptPart2 ++ exampleBlock ++ promptPart3 ++
  String.intercalate "\n" tool_descriptions ++ promptPart4 ++ sq ++ promptPart5

/-- One function call requested by the LLM. The arguments mapping is
modelled by its rendered text, used both for display (line 144) and for
dispatch (line 143). -/
structure FunctionCall where
  name : String
  args : String
  deriving DecidableEq

/-- One Part of an LLM turn, modelling the duck-typed attribute probing of
lines 134 and 138: `text = some t` iff the part has a `text` attribute (`t`
may be the empty string, which is python-falsy), and `function_call = some fc`
iff the part has a `function_call` attribute. -/
structure Part where
  text : Option String
  function_call : Option FunctionCall
  deriving DecidableEq

/-- One LLM turn: its ordered list of Parts. -/
structure Turn where
  parts : List Part
  deriving DecidableEq

/-- Line 144: the tool-invocation notice. -/
def callingLine (nm ar : String) : String :=
  "[Calling tool " ++ nm ++ " with args " ++ ar ++ "]"

/-- Line 148: the tool-result notice. -/
def resultLine (content : String) : String :=
  "[Tool result: " ++ content ++ "]"

/-- Line 153: the fixed signature line. -/
def signatureLine : String :=
  "this is Ujjwal" ++ sq ++ "s weather agent :)"

/-- Line 158: the error notice appended by the `except` handler. -/
def errorLine (msg : String) : String :=
  "Error in processing with Gemini: " ++ msg

/-- Line 151: the follow-up message sent back to the LLM after a tool call. -/
def humanReadable (nm content : String) : String :=
  "The tool " ++ nm ++ " returned the following result: " ++ content

/-- Outcome of one `process_query` run: `transcript` is `.ok` the returned
string, or `.error e` when the exception `e` escapes `process_query`
(to be caught by the interactive loop, line 179); `toolCalls` records every
`session.call_tool` dispatch (line 143), in order. -/
structure RunOutcome where
  transcript : Except String String
  toolCalls : List FunctionCall

/-- The body of the `for part in response.parts` loop (lines 132-155):
`k` is the index of the next `chat.send_message` call, `acc` the accumulated
`final_text`, `calls` the tool calls dispatched so far. A python exception
raised by `call_tool` or `send_message` aborts the loop; the `except` handler
(lines 157-160) appends the error notice and the traceback (`tb e`), and the
joined partial transcript is still returned. -/
def runParts (llm : Nat → String → Except String Turn)
    (callTool : String → String → Except String String)
    (tb : String → String) :
    List Part → Nat → List String → List FunctionCall →
    List String × List FunctionCall
  | [], _, acc, calls => (acc, calls)
  | p :: rest, k, acc, calls =>
    let acc1 := match p.text with
      | some t => if t ≠ "" then acc ++ [t] else acc
      | none => acc
    match p.function_call with
    | none => runParts llm callTool tb rest k acc1 calls
    | some fc =>
      let calls1 := calls ++ [fc]
      match callTool fc.name fc.args with
      | .error e => (acc1 ++ [errorLine e, tb e], calls1)
      | .ok content =>
        let acc2 := acc1 ++ [callingLine fc.name fc.args, resultLine content]
        match llm k (humanReadable fc.name content) with
        | .error e => (acc2 ++ [errorLine e, tb e], calls1)
        | .ok follow =>
          let acc3 := acc2 ++ [signatureLine]
          let acc4 := match follow.parts with
            | [] => acc3
            | fp :: _ => match fp.text with
              | some t => acc3 ++ [t]
              | none => acc3
          runParts llm callTool tb rest (k + 1) acc4 calls1

/-- `process_query` (lines 54-162). `query` is the user's query;
`listTools` models `session.list_tools()` (line 56 — note: OUTSIDE the `try`
block, as is the whole discovery loop); `llm k msg` models the k-th
`chat.send_message(msg)` call of this query (call 0 sends the enhanced
query); `callTool n a` models `session.call_tool(n, a)` returning the
rendered `result.content`; `tb e` models `traceback.format_exc()` after
exception `e`. An `.error` anywhere outside the `try` block escapes;
`.error`s inside it are rendered into the returned transcript. -/
def process_query (query : String)
    (listTools : Except String (List Tool))
    (llm : Nat → String → Except String Turn)
    (callTool : String → String → Except String String)
    (tb : String → String) : RunOutcome :=
  match listTools with
  | .error e => ⟨.error e, []⟩
  | .ok tools =>
    match discover tools with
    | .error e => ⟨.error e, []⟩
    | .ok dls =>
      match llm 0 (enhanced_query query dls.2) with
      | .error e => ⟨.ok (String.intercalate "\n" [errorLine e, tb e]), []⟩
      | .ok response =>
        match response.parts with
        | [] => ⟨.ok "No response from Gemini", []⟩
        | p :: rest =>
          let r := runParts llm callTool tb (p :: rest) 1 [] []
          ⟨.ok (String.intercalate "\n" r.1), r.2⟩

/-- The function calls contained in a turn's parts, in order. -/
def turnFCs (t : Turn) : List FunctionCall :=
  t.parts.filterMap (fun p => p.function_call)

/-- The function calls of the query's *initial* LLM turn (empty when the
run never reaches, or gets no turn from, the initial `send_message`). -/
def initialTurnFCs (query : String) (listTools : Except String (List Tool))
    (llm : Nat → String → Except String Turn) : List FunctionCall :=
  match listTools with
  | .error _ => []
  | .ok tools =>
    match discover tools with
    | .error _ => []
    | .ok dls =>
      match llm 0 (enhanced_query query dls.2) with
      | .error _ => []
      | .ok response => turnFCs response

/-- The parameters handed to the stdio transport when a subprocess is
spawned. -/
structure StdioServerParameters where
  command : String
  args : List String
  deriving DecidableEq

/-- Python's `str.endswith`: the suffix's characters end the string. -/
def strEndsWith (s suffix : String) : Bool :=
  suffix.data.isSuffixOf s.data

/-- `connect_to_server` lines 31-41, up to the spawn: validates the script
extension and picks the interpreter. An `.error` models the `ValueError`
raised *before* any subprocess is spawned or transport established; an `.ok`
carries the `StdioServerParameters` with which the subprocess is then
spawned. -/
def connect_to_server (server_script_path : String) :
    Except String StdioServerParameters :=
  let is_python := strEndsWith server_script_path ".py"
  let is_js := strEndsWith server_script_path ".js"
  if !(is_python || is_js) then
    .error "Server script must be a .py or .js file"
  else
    .ok ⟨if is_python then "python" else "node", [server_script_path]⟩

/-! ## Theorems -/

/-- Induction principle for `SchemaValue` (which nests in `List`). -/
theorem SchemaValue.inductionOn (P : SchemaValue → Prop)
    (hstr : ∀ s, P (.str s)) (hint : ∀ n, P (.int n))
    (hbool : ∀ b, P (.bool b)) (hnull : P .null)
    (hdict : ∀ kvs, (∀ kv ∈ kvs, P kv.2) → P (.dict kvs))
    (hlist : ∀ xs, (∀ x ∈ xs, P x) → P (.list xs)) :
    ∀ v, P v
  | .str s => hstr s
  | .int n => hint n
  | .bool b => hbool b
  | .null => hnull
  | .dict kvs => hdict kvs (fun kv hkv =>
      SchemaValue.inductionOn P hstr hint hbool hnull hdict hlist kv.2)
  | .list xs => hlist xs (fun x hx =>
      SchemaValue.inductionOn P hstr hint hbool hnull hdict hlist x)
termination_by v => sizeOf v
decreasing_by
  · have h1 := List.sizeOf_lt_of_mem hkv
    obtain ⟨k, v⟩ := kv
    simp at h1 ⊢
    omega
  · have h1 := List.sizeOf_lt_of_mem hx
    simp
    omega

theorem clean_schema_dict (kvs : List (String × SchemaValue)) :
    clean_schema (.dict kvs) =
      .dict ((kvs.filter (fun kv => kv.1 ≠ "title")).map
        (fun kv => (kv.1, clean_schema kv.2))) := by
  rw [clean_schema]
  congr 1
  rw [List.map_attach]
  simp [List.pmap_eq_map]

theorem clean_schema_list (xs : List SchemaValue) :
    clean_schema (.list xs) = .list (xs.map clean_schema) := by
  rw [clean_schema]
  congr 1
  rw [List.map_attach]
  simp [List.pmap_eq_map]

theorem clean_schema_str (s : String) : clean_schema (.str s) = .str s := by
  simp [clean_schema]

theorem clean_schema_int (n : Int) : clean_schema (.int n) = .int n := by
  simp [clean_schema]

theorem clean_schema_bool (b : Bool) : clean_schema (.bool b) = .bool b := by
  simp [clean_schema]

theorem clean_schema_null : clean_schema .null = .null := by
  simp [clean_schema]

theorem hasTitleKey_dict (kvs : List (String × SchemaValue)) :
    hasTitleKey (.dict kvs) =
      kvs.any (fun kv => kv.1 = "title" || hasTitleKey kv.2) := by
  rw [hasTitleKey, List.any_eq, List.any_eq]
  simp

theorem hasTitleKey_list (xs : List SchemaValue) :
    hasTitleKey (.list xs) = xs.any hasTitleKey := by
  rw [hasTitleKey, List.any_eq, List.any_eq]
  simp

theorem hasTitleKey_clean_schema (v : SchemaValue) :
    hasTitleKey (clean_schema v) = false := by
  induction v using SchemaValue.inductionOn with
  | hstr s => simp [clean_schema, hasTitleKey]
  | hint n => simp [clean_schema, hasTitleKey]
  | hbool b => simp [clean_schema, hasTitleKey]
  | hnull => simp [clean_schema, hasTitleKey]
  | hdict kvs ih =>
      rw [clean_schema_dict, hasTitleKey_dict]
      rw [List.any_eq_false]
      intro kv hkv
      simp only [List.mem_map, List.mem_filter] at hkv
      obtain ⟨⟨k, v⟩, ⟨hmem, hne⟩, hEq⟩ := hkv
      subst hEq
      simp only [ne_eq, decide_not, Bool.not_eq_eq_eq_not, Bool.not_true,
        decide_eq_false_iff_not] at hne
      simp [hne, ih ⟨k, v⟩ hmem]
  | hlist xs ih =>
      rw [clean_schema_list, hasTitleKey_list]
      rw [List.any_eq_false]
      intro x hx
      simp only [List.mem_map] at hx
      obtain ⟨y, hy, hEq⟩ := hx
      subst hEq
      simp [ih y hy]

theorem clean_schema_idem (v : SchemaValue) :
    clean_schema (clean_schema v) = clean_schema v := by
  induction v using SchemaValue.inductionOn with
  | hstr s => simp [clean_schema]
  | hint n => simp [clean_schema]
  | hbool b => simp [clean_schema]
  | hnull => simp [clean_schema]
  | hdict kvs ih =>
      rw [clean_schema_dict, clean_schema_dict]
      congr 1
      rw [List.filter_map, List.map_map]
      have hcomp : ((fun kv : String × SchemaValue => decide (kv.1 ≠ "title")) ∘
          (fun kv : String × SchemaValue => (kv.1, clean_schema kv.2))) =
          (fun kv : String × SchemaValue => decide (kv.1 ≠ "title")) := rfl
      rw [hcomp, List.filter_filter]
      simp only [Bool.and_self]
      apply List.map_congr_left
      intro kv hkv
      have hmem := (List.mem_filter.mp hkv).1
      simp [Function.comp, ih kv hmem]
  | hlist xs ih =>
      rw [clean_schema_list, clean_schema_list]
      congr 1
      rw [List.map_map]
      apply List.map_congr_left
      intro x hx
      simp [Function.comp, ih x hx]

/-- Looking a non-`"title"` key up in a cleaned dict finds the cleaned value
at that key of the original dict. -/
theorem dictFind_clean (kvs : List (String × SchemaValue)) (k : String)
    (hk : k ≠ "title") :
    dictFind ((kvs.filter (fun kv => kv.1 ≠ "title")).map
      (fun kv => (kv.1, clean_schema kv.2))) k =
      (dictFind kvs k).map clean_schema := by
  induction kvs with
  | nil => rfl
  | cons kv rest ih =>
      obtain ⟨k0, v0⟩ := kv
      by_cases ht : k0 = "title"
      · subst ht
        have hne : ¬ (("title" : String) = k) := fun h => hk h.symm
        simpa [dictFind, List.find?_cons, hne] using ih
      · by_cases hkk : k0 = k
        · subst hkk
          simp [dictFind, List.find?_cons, ht]
        · simpa [dictFind, List.find?_cons, ht, hkk] using ih

/-- `mapM` over a mapped list whose every image succeeds. -/
theorem mapM_map_ok {α β γ : Type} (f : α → β) (g : β → Except String γ)
    (h : α → γ) (l : List α) (hl : ∀ x ∈ l, g (f x) = .ok (h x)) :
    (l.map f).mapM g = .ok (l.map h) := by
  induction l with
  | nil => rfl
  | cons a rest ih =>
      rw [List.map_cons, List.mapM_cons, hl a (by simp),
        ih (fun x hx => hl x (by simp [hx]))]
      rfl

/-- `paramLine` applied to a cleaned well-formed parameter schema yields the
spec's line for the original parameter schema. -/
theorem paramLine_clean (p : String) (pd : SchemaValue) (h : WFProp pd) :
    paramLine p (clean_schema pd) = .ok (specParamLine p (declaredDesc pd)) := by
  obtain ⟨pkvs, hpd, hdesc⟩ := h
  subst hpd
  rw [clean_schema_dict, paramLine]
  have hfind := dictFind_clean pkvs "description" (by decide)
  rcases hdesc with hnone | ⟨d, hd⟩
  · rw [hfind, hnone]
    simp [declaredDesc, hnone, specParamLine, pyStr]
  · rw [hfind, hd]
    simp [declaredDesc, hd, specParamLine, Option.getD, clean_schema, pyStr]

/-- The parameter lines computed from a cleaned well-formed dict schema are
the spec's lines for the non-`"title"` declared parameters. -/
theorem toolParamLines_clean (kvs : List (String × SchemaValue))
    (hwf : WFSchema (.dict kvs)) :
    toolParamLines (clean_schema (.dict kvs)) =
      .ok (((declaredProps (.dict kvs)).filter (fun kv => kv.1 ≠ "title")).map
        (fun kv => specParamLine kv.1 (declaredDesc kv.2))) := by
  rw [clean_schema_dict, toolParamLines]
  rw [dictFind_clean kvs "properties" (by decide)]
  cases hp : dictFind kvs "properties" with
  | none => simp [declaredProps, hp]
  | some v =>
      obtain ⟨props, rfl, hprops⟩ := hwf kvs v rfl hp
      have hmapM := mapM_map_ok
        (fun kv : String × SchemaValue => (kv.1, clean_schema kv.2))
        (fun kv : String × SchemaValue => paramLine kv.1 kv.2)
        (fun kv : String × SchemaValue => specParamLine kv.1 (declaredDesc kv.2))
        (props.filter (fun kv => kv.1 ≠ "title"))
        (fun kv hkv => paramLine_clean kv.1 kv.2
          (hprops kv (List.mem_of_mem_filter hkv)))
      simp only [Option.map_some', clean_schema_dict]
      rw [hmapM]
      simp [declaredProps, hp]

/-- Discovery of one well-formed tool: the declaration carries the cleaned
schema and the lines are the header followed by one line per non-`"title"`
declared parameter, in declaration order. -/
theorem discoverTool_eq (t : Tool) (hwf : WFSchema t.inputSchema) :
    discoverTool t =
      .ok (⟨t.name, t.description, clean_schema t.inputSchema⟩, specToolLines t) := by
  obtain ⟨tn, td, ts⟩ := t
  cases ts with
  | dict kvs =>
      show Except.map _ (toolParamLines (clean_schema (.dict kvs))) = _
      rw [toolParamLines_clean kvs hwf]
      rfl
  | str s =>
      show Except.map _ (toolParamLines (clean_schema (.str s))) = _
      rw [clean_schema_str]
      rfl
  | int n =>
      show Except.map _ (toolParamLines (clean_schema (.int n))) = _
      rw [clean_schema_int]
      rfl
  | bool b =>
      show Except.map _ (toolParamLines (clean_schema (.bool b))) = _
      rw [clean_schema_bool]
      rfl
  | null =>
      show Except.map _ (toolParamLines (clean_schema .null)) = _
      rw [clean_schema_null]
      rfl
  | list xs =>
      show Except.map _ (toolParamLines (clean_schema (.list xs))) = _
      rw [clean_schema_list]
      rfl

/-- Discovery over a list of well-formed tools. -/
theorem discover_eq (tools : List Tool) (hwf : ∀ t ∈ tools, WFSchema t.inputSchema) :
    discover tools =
      .ok (tools.map (fun t => ⟨t.name, t.description, clean_schema t.inputSchema⟩),
           tools.flatMap specToolLines) := by
  induction tools with
  | nil => rfl
  | cons t rest ih =>
      rw [discover, discoverTool_eq t (hwf t (by simp)),
        ih (fun x hx => hwf x (by simp [hx]))]
      rfl

/-- Length of the flattened description lines: one header per tool plus one
line per non-`"title"` declared parameter. -/
theorem flatMap_specToolLines_length (tools : List Tool) :
    (tools.flatMap specToolLines).length = tools.length +
      (tools.map (fun t => ((declaredProps t.inputSchema).filter
        (fun kv => kv.1 ≠ "title")).length)).sum := by
  induction tools with
  | nil => rfl
  | cons t rest ih =>
      simp only [List.flatMap_cons, List.length_append, ih, specToolLines,
        List.length_cons, List.length_map, List.map_cons, List.sum_cons]
      omega

/-- Helper for establishing well-formedness of concrete schemas. -/
theorem WFSchema_of (kvs : List (String × SchemaValue))
    (h : ∀ v, dictFind kvs "properties" = some v →
      ∃ props, v = SchemaValue.dict props ∧ ∀ kv ∈ props, WFProp kv.2) :
    WFSchema (.dict kvs) := by
  intro kvs' v hkv hv
  cases hkv
  exact h v hv

/-- The tool calls dispatched by the parts loop extend `calls` by a prefix of
the function calls of the parts being iterated. -/
theorem runParts_calls_lead (llm : Nat → String → Except String Turn)
    (callTool : String → String → Except String String)
    (tb : String → String) (ps : List Part) :
    ∀ k acc calls, ∃ t s,
      (runParts llm callTool tb ps k acc calls).2 = calls ++ t ∧
      t ++ s = ps.filterMap (fun p => p.function_call) := by
  induction ps with
  | nil => exact fun k acc calls => ⟨[], [], by simp [runParts], rfl⟩
  | cons p rest ih =>
      intro k acc calls
      obtain ⟨pt, pfc⟩ := p
      cases pfc with
      | none =>
          obtain ⟨t, s, h1, h2⟩ := ih k (match pt with
            | some t => if t ≠ "" then acc ++ [t] else acc
            | none => acc) calls
          exact ⟨t, s, by simpa [runParts] using h1, by simpa using h2⟩
      | some fc =>
          cases hct : callTool fc.name fc.args with
          | error e =>
              refine ⟨[fc], rest.filterMap (fun p => p.function_call), ?_, by simp⟩
              simp [runParts, hct]
          | ok content =>
              cases hl : llm k (humanReadable fc.name content) with
              | error e =>
                  refine ⟨[fc], rest.filterMap (fun p => p.function_call), ?_, by simp⟩
                  simp [runParts, hct, hl]
              | ok follow =>
                  obtain ⟨t, s, h1, h2⟩ := ih (k + 1) _ (calls ++ [fc])
                  refine ⟨fc :: t, s, ?_, by simp [h2]⟩
                  simp only [runParts, hct, hl]
                  simpa using h1

/-- C1 (amended): the tool calls dispatched during one query are a prefix of
the FunctionCallParts of the *initial* LLM turn, in order — so the code
dispatches one tool call per FunctionCallPart of the initial turn (not only
the first), and neither the follow-up turns nor anything else triggers
further tool calls. -/
theorem claim_C1_one_call_per_initial_function_call_part (query : String)
    (listTools : Except String (List Tool))
    (llm : Nat → String → Except String Turn)
    (callTool : String → String → Except String String)
    (tb : String → String) :
    ∃ t, (process_query query listTools llm callTool tb).toolCalls ++ t =
      initialTurnFCs query listTools llm := by
  cases listTools with
  | error e => exact ⟨[], rfl⟩
  | ok tools =>
      cases hd : discover tools with
      | error e =>
          refine ⟨[], ?_⟩
          simp [process_query, initialTurnFCs, hd]
      | ok dls =>
          cases hl : llm 0 (enhanced_query query dls.2) with
          | error e =>
              refine ⟨[], ?_⟩
              simp [process_query, initialTurnFCs, hd, hl]
          | ok response =>
              cases hp : response.parts with
              | nil =>
                  refine ⟨turnFCs response, ?_⟩
                  simp [process_query, initialTurnFCs, hd, hl, hp, turnFCs]
              | cons p rest =>
                  obtain ⟨t, s, h1, h2⟩ :=
                    runParts_calls_lead llm callTool tb (p :: rest) 1 [] []
                  refine ⟨s, ?_⟩
                  simp only [process_query, initialTurnFCs, hd, hl, hp, h1,
                    List.nil_append, turnFCs]
                  exact h2

/-- C1, counterexample to the claim as stated: an initial turn holding two
FunctionCallParts dispatches two tool calls — the loop does not stop after
the first FunctionCallPart. -/
theorem claim_C1_counterexample :
    (process_query "q" (.ok [])
      (fun k _ => if k = 0
        then .ok ⟨[⟨none, some ⟨"a", "1"⟩⟩, ⟨none, some ⟨"b", "2"⟩⟩]⟩
        else .ok ⟨[]⟩)
      (fun _ _ => .ok "r") (fun e => e)).toolCalls =
      [⟨"a", "1"⟩, ⟨"b", "2"⟩] ∧
    ¬ ([(⟨"a", "1"⟩ : FunctionCall), ⟨"b", "2"⟩].length ≤ 1) := by
  exact ⟨rfl, by decide⟩

/-- C2 (amended): once discovery has succeeded, every error raised during the
LLM conversation — the initial send, the tool dispatch, the follow-up sends —
is caught inside `process_query` and rendered into the returned transcript
(the result is always an `.ok` string); in particular a failing initial LLM
call yields the error notice followed by the traceback. Errors raised
*before* the `try` block — the tool-listing call and the discovery loop — are
not caught there: they escape `process_query` (see the counterexample) and
are caught by the interactive loop instead. -/
theorem claim_C2_errors_caught_after_discovery (query : String)
    (tools : List Tool) (dls : List FunctionDecl × List String)
    (llm : Nat → String → Except String Turn)
    (callTool : String → String → Except String String)
    (tb : String → String)
    (hd : discover tools = .ok dls) :
    (∃ s, (process_query query (.ok tools) llm callTool tb).transcript = .ok s) ∧
    (∀ e, llm 0 (enhanced_query query dls.2) = .error e →
      (process_query query (.ok tools) llm callTool tb).transcript =
        .ok (String.intercalate "\n" [errorLine e, tb e])) := by
  constructor
  · cases hl : llm 0 (enhanced_query query dls.2) with
    | error e =>
        exact ⟨String.intercalate "\n" [errorLine e, tb e],
          by simp [process_query, hd, hl]⟩
    | ok response =>
        cases hp : response.parts with
        | nil =>
            exact ⟨"No response from Gemini", by simp [process_query, hd, hl, hp]⟩
        | cons p rest =>
            exact ⟨String.intercalate "\n"
                (runParts llm callTool tb (p :: rest) 1 [] []).1,
              by simp [process_query, hd, hl, hp]⟩
  · intro e he
    simp [process_query, hd, he]

/-- C2, counterexample to the claim as stated: a failing tool-listing
(discovery) call is *not* caught at the query boundary — the exception
escapes `process_query` (modelled as an `.error` result) instead of being
rendered into a returned transcript string. -/
theorem claim_C2_counterexample :
    (process_query "q" (.error "boom") (fun _ _ => .ok ⟨[]⟩)
      (fun _ _ => .ok "") (fun e => e)).transcript = .error "boom" := rfl

/-- C2, witness: with an empty tool list (discovery succeeds) and an LLM
client that always raises, the transcript is returned and renders the
failure. -/
theorem claim_C2_witness :
    (process_query "q" (.ok []) (fun _ _ => .error "llm down")
      (fun _ _ => .ok "") (fun e => "trace: " ++ e)).transcript =
      .ok (String.intercalate "\n" [errorLine "llm down", "trace: llm down"]) :=
  (claim_C2_errors_caught_after_discovery "q" [] ([], [])
    (fun _ _ => .error "llm down") (fun _ _ => .ok "")
    (fun e => "trace: " ++ e) rfl).2 "llm down" rfl

/-- C3: when the initial turn is a nonempty TextPart followed by a
FunctionCallPart, the tool call succeeds, and the follow-up turn's first part
carries text, the transcript is exactly — in this order, newline-joined —
the text, the tool-invocation notice, the tool-result notice, the fixed
signature line, and the follow-up text. -/
theorem claim_C3_transcript_order (query : String)
    (tools : List Tool) (dls : List FunctionDecl × List String)
    (llm : Nat → String → Except String Turn)
    (callTool : String → String → Except String String)
    (tb : String → String) (t : String) (fc : FunctionCall) (payload u : String)
    (p2 : Option FunctionCall) (rest2 : List Part)
    (hd : discover tools = .ok dls)
    (h0 : llm 0 (enhanced_query query dls.2) =
      .ok ⟨[⟨some t, none⟩, ⟨none, some fc⟩]⟩)
    (ht : t ≠ "")
    (hc : callTool fc.name fc.args = .ok payload)
    (h1 : llm 1 (humanReadable fc.name payload) = .ok ⟨⟨some u, p2⟩ :: rest2⟩) :
    (process_query query (.ok tools) llm callTool tb).transcript =
      .ok (String.intercalate "\n"
        [t, callingLine fc.name fc.args, resultLine payload, signatureLine, u]) := by
  simp [process_query, hd, h0, runParts, ht, hc, h1]

/-- C3, witness at a concrete scenario mirroring the spec's scenario C. -/
theorem claim_C3_witness :
    (process_query "weather in Miami"
      (.ok [])
      (fun k _ => if k = 0
        then .ok ⟨[⟨some "Let me check", none⟩,
                   ⟨none, some ⟨"getWeather", "lat=25.7617, lon=-80.1918"⟩⟩]⟩
        else .ok ⟨[⟨some "It is 301 K in Miami.", none⟩]⟩)
      (fun _ _ => .ok "301")
      (fun e => e)).transcript =
      .ok (String.intercalate "\n"
        ["Let me check",
         callingLine "getWeather" "lat=25.7617, lon=-80.1918",
         resultLine "301", signatureLine, "It is 301 K in Miami."]) :=
  claim_C3_transcript_order "weather in Miami" [] ([], []) _ _ _
    "Let me check" ⟨"getWeather", "lat=25.7617, lon=-80.1918"⟩ "301"
    "It is 301 K in Miami." none []
    rfl rfl (by decide) rfl rfl

/-- C4: when the initial LLM turn has zero Parts, `process_query` returns
exactly the string "No response from Gemini" and dispatches no tool call. -/
theorem claim_C4_no_response (query : String)
    (tools : List Tool) (dls : List FunctionDecl × List String)
    (llm : Nat → String → Except String Turn)
    (callTool : String → String → Except String String)
    (tb : String → String)
    (hd : discover tools = .ok dls)
    (h0 : llm 0 (enhanced_query query dls.2) = .ok ⟨[]⟩) :
    (process_query query (.ok tools) llm callTool tb).transcript =
      .ok "No response from Gemini" ∧
    (process_query query (.ok tools) llm callTool tb).toolCalls = [] := by
  constructor <;> simp [process_query, hd, h0]

/-- C4, witness. -/
theorem claim_C4_witness :
    (process_query "q" (.ok []) (fun _ _ => .ok ⟨[]⟩)
      (fun _ _ => .ok "") (fun e => e)).transcript =
      .ok "No response from Gemini" ∧
    (process_query "q" (.ok []) (fun _ _ => .ok ⟨[]⟩)
      (fun _ _ => .ok "") (fun e => e)).toolCalls = [] :=
  claim_C4_no_response "q" [] ([], []) _ _ _ rfl rfl

/-- C5 (amended): for every list of N well-formed tool descriptors, discovery
produces N FunctionDeclarations, and exactly N plus the count of declared
parameters *not literally named "title"* description lines — a header
`- <name>: <description>` per tool followed by one line
`  - Parameter '<paramName>': <paramDescription>` per remaining parameter
(empty description string when absent), preserving tool order and parameter
insertion order. (The in-place normalization deletes a parameter named
`"title"` before the lines are generated, so such parameters produce no
line — see the counterexample.) -/
theorem claim_C5_discovery_declarations_and_lines (tools : List Tool)
    (hwf : ∀ t ∈ tools, WFSchema t.inputSchema) :
    discover tools =
      .ok (tools.map (fun t => ⟨t.name, t.description, clean_schema t.inputSchema⟩),
           tools.flatMap specToolLines) ∧
    (tools.map (fun t =>
      (⟨t.name, t.description, clean_schema t.inputSchema⟩ : FunctionDecl))).length =
        tools.length ∧
    (tools.flatMap specToolLines).length = tools.length +
      (tools.map (fun t => ((declaredProps t.inputSchema).filter
        (fun kv => kv.1 ≠ "title")).length)).sum :=
  ⟨discover_eq tools hwf, by simp, flatMap_specToolLines_length tools⟩

/-- C5, counterexample to the claim as stated: a single tool declaring exactly
one parameter, literally named `"title"`, yields 1 description line (the
header only), not 1 + 1: the parameter line is silently dropped. -/
theorem claim_C5_counterexample :
    (discover [⟨"t", "d",
        .dict [("properties", .dict [("title", .dict [])])]⟩]).map
      (fun r => r.2.length) = .ok 1 ∧ ¬ ((1 : Nat) = 1 + 1) := by
  refine ⟨?_, by decide⟩
  rw [discover_eq _ ?hwf]
  case hwf =>
    intro t ht
    simp only [List.mem_singleton] at ht
    subst ht
    apply WFSchema_of
    intro v hv
    simp [dictFind, List.find?] at hv
    subst hv
    refine ⟨_, rfl, ?_⟩
    intro kv hkv
    simp at hkv
    subst hkv
    exact ⟨[], rfl, Or.inl rfl⟩
  simp [specToolLines, declaredProps, dictFind, List.find?, Except.map]

/-- C5, witness: one tool with two declared parameters (one with a
description, one without) yields 1 declaration and 1 + 2 description lines. -/
theorem claim_C5_witness :
    (discover [⟨"getWeather", "Get the weather",
        .dict [("type", .str "object"),
               ("properties", .dict
                 [("latitude", .dict [("description", .str "Latitude")]),
                  ("longitude", .dict [])])]⟩]).map
      (fun r => (r.1.length, r.2.length)) = .ok (1, 3) := by
  have h := claim_C5_discovery_declarations_and_lines
    [⟨"getWeather", "Get the weather",
        .dict [("type", .str "object"),
               ("properties", .dict
                 [("latitude", .dict [("description", .str "Latitude")]),
                  ("longitude", .dict [])])]⟩]
    (by
      intro t ht
      simp only [List.mem_singleton] at ht
      subst ht
      apply WFSchema_of
      intro v hv
      simp [dictFind, List.find?] at hv
      subst hv
      refine ⟨_, rfl, ?_⟩
      intro kv hkv
      simp at hkv
      rcases hkv with h1 | h2
      · subst h1
        exact ⟨_, rfl, Or.inr ⟨"Latitude", by simp [dictFind, List.find?]⟩⟩
      · subst h2
        exact ⟨[], rfl, Or.inl rfl⟩)
  rw [h.1]
  simp [specToolLines, declaredProps, dictFind, List.find?, Except.map]

/-- C6: after normalization no key literally named `"title"` remains anywhere
in the output, at any nesting depth (including mappings nested inside
sequences nested inside mappings), and non-mapping, non-sequence leaves are
returned unchanged. -/
theorem claim_C6_no_title_after_clean_and_leaves_unchanged :
    (∀ s, hasTitleKey (clean_schema s) = false) ∧
    (∀ x, clean_schema (.str x) = .str x) ∧
    (∀ n, clean_schema (.int n) = .int n) ∧
    (∀ b, clean_schema (.bool b) = .bool b) ∧
    (clean_schema .null = .null) :=
  ⟨hasTitleKey_clean_schema,
   fun x => by simp [clean_schema],
   fun n => by simp [clean_schema],
   fun b => by simp [clean_schema],
   by simp [clean_schema]⟩

/-- C7: schema normalization is idempotent — for every structured schema
value `s`, `clean_schema (clean_schema s) = clean_schema s`. -/
theorem claim_C7_normalize_idempotent :
    ∀ s, clean_schema (clean_schema s) = clean_schema s :=
  clean_schema_idem

/-- C8: for every user query and every list of description lines, the
composed prompt contains the literal user query, the fixed
location-conversion example block verbatim (which itself contains the
literal substring "25.7617" of the Miami example), and the newline-joined
description lines — regardless of the query's content. -/
theorem claim_C8_prompt_embeds_query_examples_and_lines (q : String)
    (lines : List String) :
    (∃ a b, enhanced_query q lines = a ++ q ++ b) ∧
    (∃ a b, enhanced_query q lines = a ++ exampleBlock ++ b) ∧
    (∃ a b, exampleBlock = a ++ "25.7617" ++ b) ∧
    (∃ a b, enhanced_query q lines = a ++ String.intercalate "\n" lines ++ b) := by
  refine ⟨⟨promptPart1, promptPart2 ++ exampleBlock ++ promptPart3 ++
      String.intercalate "\n" lines ++ promptPart4 ++ sq ++ promptPart5, ?_⟩,
    ⟨promptPart1 ++ q ++ promptPart2, promptPart3 ++
      String.intercalate "\n" lines ++ promptPart4 ++ sq ++ promptPart5, ?_⟩,
    ⟨"For example:\n- Miami, FL is approximately at latitude ",
     ", longitude -80.1918\n- New York City is approximately at latitude 40.7128, longitude -74.0060\n- Los Angeles is approximately at latitude 34.0522, longitude -118.2437", ?_⟩,
    ⟨promptPart1 ++ q ++ promptPart2 ++ exampleBlock ++ promptPart3,
     promptPart4 ++ sq ++ promptPart5, ?_⟩⟩
  · simp [enhanced_query, String.append_assoc]
  · simp [enhanced_query, String.append_assoc]
  · rfl
  · simp [enhanced_query, String.append_assoc]

/-- C9: for every server script path whose name ends in neither ".py" nor
".js", `connect_to_server` raises the ValueError before any subprocess is
spawned or transport established. -/
theorem claim_C9_invalid_extension_fails_before_spawn (p : String)
    (hpy : strEndsWith p ".py" = false) (hjs : strEndsWith p ".js" = false) :
    connect_to_server p = .error "Server script must be a .py or .js file" := by
  simp [connect_to_server, hpy, hjs]

/-- C9, witness: a ".txt" path is rejected. -/
theorem claim_C9_witness :
    connect_to_server "server.txt" =
      .error "Server script must be a .py or .js file" :=
  claim_C9_invalid_extension_fails_before_spawn "server.txt"
    (by decide) (by decide)

/-- C10: for every well-formed tool whose `inputSchema` declares a
`"properties"` map containing a key literally named `"title"`, discovery
emits no description line and no declared parameter for that property: the
lines are the header followed by one line per *other* parameter (strictly
fewer lines than declared parameters), and the cleaned declaration's
properties map no longer contains a `"title"` key. -/
theorem claim_C10_title_parameter_dropped (t : Tool)
    (kvs props : List (String × SchemaValue))
    (hs : t.inputSchema = .dict kvs)
    (hp : dictFind kvs "properties" = some (.dict props))
    (htitle : ∃ pd, ("title", pd) ∈ props)
    (hwf : WFSchema t.inputSchema) :
    discoverTool t = .ok
        (⟨t.name, t.description, clean_schema t.inputSchema⟩,
         ("- " ++ t.name ++ ": " ++ t.description) ::
           (props.filter (fun kv => kv.1 ≠ "title")).map
             (fun kv => specParamLine kv.1 (declaredDesc kv.2))) ∧
    ((props.filter (fun kv => kv.1 ≠ "title")).map
       (fun kv => specParamLine kv.1 (declaredDesc kv.2))).length < props.length ∧
    (∀ kv ∈ declaredProps (clean_schema t.inputSchema), ¬ kv.1 = "title") := by
  refine ⟨?_, ?_, ?_⟩
  · rw [discoverTool_eq t hwf]
    simp [specToolLines, declaredProps, hs, hp]
  · obtain ⟨pd, hpd⟩ := htitle
    rw [List.length_map]
    exact List.length_filter_lt_length_iff_exists.mpr ⟨("title", pd), hpd, by simp⟩
  · rw [hs, clean_schema_dict]
    intro kv hkv
    simp only [declaredProps, dictFind_clean kvs "properties" (by decide), hp,
      Option.map_some', clean_schema_dict] at hkv
    simp only [List.mem_map, List.mem_filter] at hkv
    obtain ⟨kv', ⟨hmem, hne⟩, rfl⟩ := hkv
    simpa using hne

/-- C10, witness: a tool declaring parameters `"title"` and `"latitude"`
yields only the header and the latitude line — the title parameter is
silently dropped. -/
theorem claim_C10_witness :
    (discoverTool ⟨"getWeather", "w",
        .dict [("properties", .dict
          [("title", .dict []),
           ("latitude", .dict [("description", .str "Lat")])])]⟩).map
      (fun r => r.2) =
      .ok ["- getWeather: w", specParamLine "latitude" "Lat"] := by
  have h := claim_C10_title_parameter_dropped
    ⟨"getWeather", "w",
      .dict [("properties", .dict
        [("title", .dict []),
         ("latitude", .dict [("description", .str "Lat")])])]⟩
    [("properties", .dict
        [("title", .dict []),
         ("latitude", .dict [("description", .str "Lat")])])]
    [("title", .dict []),
     ("latitude", .dict [("description", .str "Lat")])]
    rfl
    (by simp [dictFind, List.find?])
    ⟨.dict [], by simp⟩
    (by
      apply WFSchema_of
      intro v hv
      simp [dictFind, List.find?] at hv
      subst hv
      refine ⟨_, rfl, ?_⟩
      intro kv hkv
      simp at hkv
      rcases hkv with h1 | h2
      · subst h1
        exact ⟨[], rfl, Or.inl rfl⟩
      · subst h2
        exact ⟨_, rfl, Or.inr ⟨"Lat", by simp [dictFind, List.find?]⟩⟩)
  rw [h.1]
  simp [declaredDesc, dictFind, List.find?, Except.map]

end WeatherClient
